import Mathlib

/-!
Verification of the blobfuse utilities core (src/blobfuse/utilities.cpp):
the cache-eviction engine, the disk-threshold hysteresis probe, the
hierarchical listing paginator, the directory-emptiness resolver, the
getattr scan, and the directory-rename reconciliation.  Each definition is
a shallow embedding of the corresponding C++ function; external effects
(stat, open, flock, remote listing calls) are passed in explicitly as
environment records or oracles of call results.
-/

namespace Blobfuse

/-- A remote listing entry, from `list_blobs_hierarchical_item`: the fields
of the item that utilities.cpp reads (name, directory flag, size, metadata
key-value pairs). -/
structure BlobItem where
  name : String
  is_directory : Bool
  size : Nat
  metadata : List (String × String)
deriving DecidableEq

/-! ## Eviction engine (`gc_cache::run_gc_cache`, utilities.cpp lines 78-178) -/

/-- The errno value EWOULDBLOCK compared against in run_gc_cache. -/
def EWOULDBLOCK : Int := 11

/-- Environment of one pass of the gc loop over the head candidate:
the wall clock, the candidate's closure time, the stat() results on the
cached file, the global disk-threshold flag, and the outcomes of the
open() and flock(LOCK_EX|LOCK_NB) system calls. -/
structure GcEnv where
  now : Int
  closed_time : Int
  st_mtime : Int
  st_ctime : Int
  disk_threshold_reached : Bool
  open_ok : Bool
  flock_ok : Bool
  flock_errno : Int
deriving DecidableEq

/-- Branch taken by one pass of the gc loop body. -/
inductive GcOutcome where
  | notEligible
  | notStale
  | openFailed
  | contention
  | droppedOther
  | unlinked
deriving DecidableEq

/-- Observable effects of one pass of the gc loop body: which branch ran,
whether unlink() was called on the cached file, and whether the candidate
was popped from the front of the deque. -/
structure GcResult where
  outcome : GcOutcome
  unlinked : Bool
  popped : Bool
deriving DecidableEq

/-- One pass of the body of `gc_cache::run_gc_cache` over the head
candidate (utilities.cpp lines 103-175): the first eligibility test on
closed_time, the re-stat eligibility test on mtime/ctime, the open and
non-blocking exclusive flock attempts, the unlink, and the pop_front that
closes the eligible branch. -/
def gcStep (timeout : Int) (e : GcEnv) : GcResult :=
  if e.now - e.closed_time > timeout ∨ e.disk_threshold_reached = true then
    if (e.now - e.st_mtime > timeout ∧ e.now - e.st_ctime > timeout) ∨
        e.disk_threshold_reached = true then
      if e.open_ok = true then
        if e.flock_ok = false then
          if e.flock_errno = EWOULDBLOCK then
            ⟨GcOutcome.contention, false, true⟩
          else
            ⟨GcOutcome.droppedOther, false, true⟩
        else
          ⟨GcOutcome.unlinked, true, true⟩
      else
        ⟨GcOutcome.openFailed, false, true⟩
    else
      ⟨GcOutcome.notStale, false, true⟩
  else
    ⟨GcOutcome.notEligible, false, false⟩

/-! ## Disk threshold probe (`gc_cache::check_disk_space`, lines 30-58) -/

/-- `gc_cache::check_disk_space`: the probe argument is the used-percent
computed from a successful statvfs (`none` models a statvfs failure, which
the code answers with an immediate `return false`).  The two threshold
comparisons and their branch order follow lines 49-57. -/
def check_disk_space (high low : ℚ) (reached : Bool) (probe : Option ℚ) : Bool :=
  match probe with
  | none => false
  | some used_percent =>
    if used_percent ≥ high ∧ reached = false then true
    else if used_percent ≥ low ∧ reached = true then true
    else false

/-- The threshold flag after a sequence of probes, each assignment being
`disk_threshold_reached = check_disk_space()` as in run_gc_cache lines
149 and 174. -/
def disk_flag_run (high low : ℚ) (reached : Bool) (probes : List (Option ℚ)) : Bool :=
  probes.foldl (fun r p => check_disk_space high low r p) reached

/-! ## Listing paginator (`list_all_blobs_hierarchical`, lines 266-318) -/

/-- Result of one remote `list_blobs_hierarchical` call: either a failure
(errno set) or a page of items with the next continuation marker. -/
inductive ListCallResult where
  | fail
  | ok (blobs : List BlobItem) (next_marker : String)
deriving DecidableEq

/-- The loop-carried variables of `list_all_blobs_hierarchical`. -/
structure ListLoopState where
  continuation : String
  prior : String
  success : Bool
  failcount : Nat
  results : List (List BlobItem × Bool)
deriving DecidableEq

/-- One iteration of the do-while body of `list_all_blobs_hierarchical`
(lines 280-313), fed the outcome of the remote call it made. -/
def list_step (s : ListLoopState) : ListCallResult → ListLoopState
  | ListCallResult.fail =>
    { s with success := false, failcount := s.failcount + 1 }
  | ListCallResult.ok blobs next =>
    match blobs with
    | [] => { s with success := true, failcount := 0, continuation := next }
    | b :: bs =>
      { s with success := true, failcount := 0, continuation := next,
               prior := (bs.getLastD b).name,
               results := s.results ++ [(b :: bs, decide (b.name = s.prior))] }

/-- Negation of the continue condition
`(!continuation.empty() || !success) && (failcount < maxFailCount)` of
line 314, with maxFailCount = 20. -/
def list_loop_done (s : ListLoopState) : Bool :=
  (s.continuation == "" && s.success) || decide (20 ≤ s.failcount)

/-- The do-while loop of `list_all_blobs_hierarchical`, consuming one
oracle entry per remote call; `none` means the oracle was exhausted while
the loop still wanted to call again. -/
def list_run (s : ListLoopState) : List ListCallResult → Option ListLoopState
  | [] => none
  | c :: cs =>
    let s2 := list_step s c
    if list_loop_done s2 then some s2 else list_run s2 cs

/-- The variable initialisation of lines 269-275. -/
def list_init : ListLoopState :=
  { continuation := "", prior := "", success := false, failcount := 0, results := [] }

/-- The names a consumer reads from one returned page: all entry names,
index 0 dropped when the page is flagged skip_first. -/
def page_names (p : List BlobItem × Bool) : List String :=
  if p.2 then (p.1.map BlobItem.name).tail else p.1.map BlobItem.name

/-- Concatenation of all pages after the skip_first drops. -/
def flatten_results (rs : List (List BlobItem × Bool)) : List String :=
  (rs.map page_names).flatten

/-- `Serves prior names oracle`: the oracle is a legal remote-listing
conversation that delivers exactly the name sequence `names`, given that
the last name delivered before this point was `prior`.  Failures are
transient and retried; a successful page either starts with a repeat of
`prior` (the page-boundary duplicate artifact) or starts with a genuinely
new name; an empty next_marker ends the conversation and must coincide
with the end of `names`. -/
inductive Serves : String → List String → List ListCallResult → Prop
  | retry {prior : String} {names : List String} {cs : List ListCallResult} :
      Serves prior names cs → Serves prior names (ListCallResult.fail :: cs)
  | emptyFinal {prior : String} {cs : List ListCallResult} :
      Serves prior [] (ListCallResult.ok [] "" :: cs)
  | emptyPage {prior : String} {names : List String} {next : String}
      {cs : List ListCallResult} (hne : next ≠ "") :
      Serves prior names cs →
      Serves prior names (ListCallResult.ok [] next :: cs)
  | freshFinal {prior : String} {cs : List ListCallResult}
      (b : BlobItem) (bs : List BlobItem) (hhead : b.name ≠ prior) :
      Serves prior ((b :: bs).map BlobItem.name) (ListCallResult.ok (b :: bs) "" :: cs)
  | freshMore {prior next : String} {cs : List ListCallResult}
      (b : BlobItem) (bs : List BlobItem) (rest : List String)
      (hhead : b.name ≠ prior) (hne : next ≠ "")
      (htail : Serves ((bs.getLastD b).name) rest cs) :
      Serves prior ((b :: bs).map BlobItem.name ++ rest)
        (ListCallResult.ok (b :: bs) next :: cs)
  | overlapFinal {prior : String} {cs : List ListCallResult}
      (o : BlobItem) (bs : List BlobItem) (hov : o.name = prior) :
      Serves prior (bs.map BlobItem.name) (ListCallResult.ok (o :: bs) "" :: cs)
  | overlapMore {prior next : String} {cs : List ListCallResult}
      (o : BlobItem) (bs : List BlobItem) (rest : List String)
      (hov : o.name = prior) (hne : next ≠ "")
      (htail : Serves ((bs.getLastD o).name) rest cs) :
      Serves prior (bs.map BlobItem.name ++ rest)
        (ListCallResult.ok (o :: bs) next :: cs)

/-! ## Directory-state resolver (`is_directory_empty`, lines 328-394, and
`is_directory_blob`, lines 214-227) -/

/-- The errno value ENOENT compared against in is_directory_empty. -/
def ENOENT : Int := 2

/-- Modelled from the spec: the directory-state result codes D_NOTEXIST,
D_EMPTY and D_NOTEMPTY come from a header that is not part of src; the
spec only requires that the failure value -1 returned by
is_directory_empty be distinct from the NotExist code. -/
def D_NOTEXIST : Int := 0

/-- Modelled from the spec: see D_NOTEXIST. -/
def D_EMPTY : Int := 1

/-- Modelled from the spec: see D_NOTEXIST. -/
def D_NOTEMPTY : Int := 2

/-- Modelled from the spec: the legacy empty-directory marker suffix
`former_directory_signifier`, declared in a header not part of src; the
spec names the legacy marker blob `".directory"`. -/
def former_directory_signifier : String := ".directory"

/-- `is_directory_blob` (lines 214-227): zero size and an
`hdi_isfolder = true` metadata pair. -/
def is_directory_blob (size : Nat) (metadata : List (String × String)) : Bool :=
  size == 0 && metadata.any (fun kv => kv.1 == "hdi_isfolder" && kv.2 == "true")

/-- Byte-suffix test, modelling the
`name.compare(name.size()-sig.size(), sig.size(), sig) == 0` check of
line 370 (ASCII names, so characters coincide with bytes). -/
def string_ends_with (s suf : String) : Bool :=
  suf.data.isSuffixOf s.data

/-- The marker test of lines 367-370 on a single listed entry, excluding
the `!old_dir_blob_found` conjunct which is loop state. -/
def is_former_dir_marker (b : BlobItem) : Bool :=
  !b.is_directory &&
  decide (former_directory_signifier.length < b.name.length) &&
  string_ends_with b.name former_directory_signifier

/-- The result of `get_blob_property(container, dir_name)` as
is_directory_empty reads it: the errno it left and the property record. -/
structure BlobProperty where
  valid : Bool
  size : Nat
  metadata : List (String × String)
deriving DecidableEq

/-- Loop-carried variables of the do-while of is_directory_empty. -/
structure DirLoopState where
  continuation : String
  success : Bool
  failcount : Nat
  old_dir_blob_found : Bool
deriving DecidableEq

/-- Negation of the continue condition
`(continuation.size() > 0 || !success) && failcount < 20` of line 385. -/
def dir_loop_done (s : DirLoopState) : Bool :=
  (s.continuation == "" && s.success) || decide (20 ≤ s.failcount)

/-- Lines 387-393: the value computed after the loop exits normally. -/
def dir_list_finish (dir_blob_exists : Bool) (s : DirLoopState) : Int :=
  if s.success = false then -1
  else if s.old_dir_blob_found || dir_blob_exists then D_EMPTY
  else D_NOTEXIST

/-- The do-while loop of is_directory_empty (lines 352-385) with its two
early `return D_NOTEMPTY` exits, consuming one oracle entry per listing
call; `none` means the oracle was exhausted while the loop wanted to call
again. -/
def dir_loop (dir_blob_exists : Bool) : DirLoopState → List ListCallResult → Option Int
  | _, [] => none
  | s, ListCallResult.fail :: cs =>
    let s2 := { s with success := false, failcount := s.failcount + 1 }
    if dir_loop_done s2 then some (dir_list_finish dir_blob_exists s2)
    else dir_loop dir_blob_exists s2 cs
  | s, ListCallResult.ok blobs next :: cs =>
    let s2 := { s with success := true, failcount := 0, continuation := next }
    match blobs with
    | [] =>
      if dir_loop_done s2 then some (dir_list_finish dir_blob_exists s2)
      else dir_loop dir_blob_exists s2 cs
    | b :: bs =>
      if bs ≠ [] then some D_NOTEMPTY
      else
        if s2.old_dir_blob_found = false ∧ is_former_dir_marker b = true then
          let s3 := { s2 with old_dir_blob_found := true }
          if dir_loop_done s3 then some (dir_list_finish dir_blob_exists s3)
          else dir_loop dir_blob_exists s3 cs
        else some D_NOTEMPTY

/-- `is_directory_empty` (lines 328-394): the property probe on the exact
key, the early failure return for errno other than 404/ENOENT, then the
paginated listing loop under `dir_name + "/"`. -/
def is_directory_empty (prop_errno : Int) (props : BlobProperty)
    (oracle : List ListCallResult) : Option Int :=
  let dir_blob_exists :=
    if prop_errno = 0 ∧ props.valid = true then
      is_directory_blob props.size props.metadata
    else false
  if prop_errno ≠ 0 ∧ prop_errno ≠ 404 ∧ prop_errno ≠ ENOENT then some (-1)
  else dir_loop dir_blob_exists
    { continuation := "", success := false, failcount := 0, old_dir_blob_found := false }
    oracle

/-! ## Attribute resolver scan (`azs_getattr`, lines 397-553) -/

/-- Lexicographic byte comparison, modelling C++ `std::string::compare`
returning a negative value (ASCII names, so characters coincide with
bytes). -/
def chars_lt : List Char → List Char → Bool
  | [], [] => false
  | [], _ :: _ => true
  | _ :: _, [] => false
  | a :: as, b :: bs => if a < b then true else if b < a then false else chars_lt as bs

/-- `a.compare(b) < 0` on strings. -/
def name_lt (a b : String) : Bool := chars_lt a.data b.data

/-- The scan state of the listing loop in azs_getattr: the exact-match
item found so far (`none` models `blobItem.name.empty()`) and the dirSize
counter. -/
structure ScanState where
  blobItem : Option BlobItem
  dirSize : Nat
deriving DecidableEq

/-- The exact-match check of lines 492-501 applied to one entry. -/
def match_check (blobName : String) (s : ScanState) (b : BlobItem) : ScanState :=
  match s.blobItem with
  | some _ => s
  | none =>
    if b.name = blobName ∨ b.name = blobName ++ "/" then
      if s.dirSize = 0 ∧
          (is_directory_blob 0 b.metadata ∨ b.is_directory = true ∨
           b.name = blobName ++ "/") then
        { blobItem := some b, dirSize := 1 }
      else { s with blobItem := some b }
    else s

/-- The inner loop of lines 473-502 over one batch, including the
`dirSize > 2 && !blobItem.name.empty()` break of line 485. -/
def scan_batch (blobName : String) : ScanState → List BlobItem → ScanState
  | s, [] => s
  | s, b :: bs =>
    if name_lt b.name (blobName ++ "/") = true then
      let s1 := { s with dirSize := s.dirSize + 1 }
      if 2 < s1.dirSize ∧ s1.blobItem ≠ none then s1
      else scan_batch blobName (match_check blobName s1 b) bs
    else scan_batch blobName (match_check blobName s b) bs

/-- The outer loop of lines 460-504 over all batches, dropping index 0 of
a batch flagged skip_first (resultStart). -/
def scan_batches (blobName : String) (s : ScanState)
    (rs : List (List BlobItem × Bool)) : ScanState :=
  rs.foldl (fun st p => scan_batch blobName st (if p.2 then p.1.tail else p.1)) s

/-- The whole scan, started from the empty blobItem and dirSize = 0. -/
def getattr_scan (blobName : String) (rs : List (List BlobItem × Bool)) : ScanState :=
  scan_batches blobName { blobItem := none, dirSize := 0 } rs

/-- The record azs_getattr synthesizes from the scan (lines 506-538):
`some (isDir, nlink)` when an exact match was found (nlink from
`dirSize > 1 ? 3 : 2` for directories, 1 for files), `none` when no entry
matched (the -ENOENT branch). -/
def getattr_result (blobName : String) (rs : List (List BlobItem × Bool)) :
    Option (Bool × Nat) :=
  let s := getattr_scan blobName rs
  match s.blobItem with
  | some b =>
    if is_directory_blob 0 b.metadata ∨ b.is_directory = true ∨
        b.name = blobName ++ "/" then
      some (true, if 1 < s.dirSize then 3 else 2)
    else some (false, 1)
  | none => none

/-- A scanned entry is evidence of children under the path: its name
strictly extends `blobName ++ "/"` or is that directory key itself (the
common-prefix entry a hierarchical listing emits exactly when the
directory has at least one child). -/
def shows_child (blobName : String) (b : BlobItem) : Bool :=
  (blobName ++ "/").data.isPrefixOf b.name.data

/-! ## Directory rename engine (`azs_rename_directory`, lines 624-765, and
`azs_rename`, lines 771-792) -/

/-- One entry returned by readdir over the cached source directory: the
fields azs_rename_directory reads. -/
structure LocalEntry where
  d_name : String
  is_dir : Bool
deriving DecidableEq

/-- The trailing-name computation of lines 720-731: drop the source
prefix (whose length includes the leading slash, hence the -1 on the
slash-less blob name) and a trailing slash if present (ASCII names, so
characters coincide with bytes). -/
def trailing_name (src_len : Nat) (name : String) : String :=
  if name.data.getLast? = some '/' then
    String.mk ((name.data.drop (src_len - 1)).take (name.data.length - src_len))
  else
    String.mk (name.data.drop (src_len - 1))

/-- The local-cache phase of azs_rename_directory (lines 661-701): every
readdir entry whose name does not begin with '.' is renamed (file or
recursive directory) and its name pushed onto local_list_results; the
returned list is both the sequence of local renames and the handled-name
set. -/
def local_phase (entries : List LocalEntry) : List String :=
  (entries.filter (fun e => ! decide (e.d_name.data.head? = some '.'))).map
    LocalEntry.d_name

/-- The item sequence the remote phase iterates over: all batches from
list_all_blobs_hierarchical, index 0 dropped from a batch flagged
skip_first (the `start` variable of line 716). -/
def dedup_items (rs : List (List BlobItem × Bool)) : List BlobItem :=
  (rs.map (fun p => if p.2 then p.1.tail else p.1)).flatten

/-- Lines 720-734 on one remote item: `some t` when the item has a
nonempty name and a nonempty trailing name t (before the handled-set
test), `none` otherwise. -/
def remote_token (src_len : Nat) (b : BlobItem) : Option String :=
  if 0 < b.name.data.length then
    let t := trailing_name src_len b.name
    if 0 < t.data.length then some t else none
  else none

/-- The trailing names present in the remote listing (the candidates the
remote phase considers, before deduplication against the local set). -/
def remote_names (src_len : Nat) (rs : List (List BlobItem × Bool)) : List String :=
  (dedup_items rs).filterMap (remote_token src_len)

/-- The remote phase of azs_rename_directory (lines 714-762): an item is
renamed exactly when its trailing name is nonempty and absent from the
locally-handled set (`std::find == end`, line 734). -/
def remote_phase (src_len : Nat) (handled : List String)
    (rs : List (List BlobItem × Bool)) : List String :=
  (dedup_items rs).filterMap (fun b =>
    match remote_token src_len b with
    | some t => if handled.contains t then none else some t
    | none => none)

/-- The full sequence of (source-relative) rename operations one
invocation of azs_rename_directory performs on its direct children:
local phase first, then the remote phase filtered by the handled set. -/
def rename_ops (src_len : Nat) (locals : List LocalEntry)
    (rs : List (List BlobItem × Bool)) : List String :=
  local_phase locals ++ remote_phase src_len (local_phase locals) rs

/-- `azs_rename` (lines 771-792): the getattr return is propagated when
nonzero; otherwise azs_rename_directory or azs_rename_single_file is
called, its return value discarded, and 0 is returned. -/
def azs_rename (getattrret : Int) (is_dir : Bool)
    (rename_dir_ret rename_file_ret : Int) : Int :=
  if getattrret ≠ 0 then getattrret
  else
    let _ := if is_dir then rename_dir_ret else rename_file_ret
    0

/-! ## Theorems -/

/-- C1: in the eviction loop body, the cached file is unlinked only when the
re-checked eligibility test (mtime and ctime both older than the cache
timeout, or the disk-threshold flag set) holds and the non-blocking
exclusive flock on the opened descriptor succeeded; in particular, when the
flock attempt fails with EWOULDBLOCK the file is not unlinked on that
cycle. -/
theorem gc_unlink_only_if_locked (timeout : Int) (e : GcEnv) :
    ((gcStep timeout e).unlinked = true →
      ((e.now - e.st_mtime > timeout ∧ e.now - e.st_ctime > timeout) ∨
        e.disk_threshold_reached = true) ∧ e.open_ok = true ∧ e.flock_ok = true) ∧
    (e.flock_ok = false → e.flock_errno = EWOULDBLOCK →
      (gcStep timeout e).unlinked = false) := by
  unfold gcStep
  constructor
  · intro h
    split_ifs at h
    all_goals simp_all
  · intro h1 h2
    split_ifs
    all_goals simp_all

/-- Witness for C1: a stale candidate whose flock attempt fails with
EWOULDBLOCK is not unlinked. -/
theorem gc_unlink_only_if_locked_witness :
    (gcStep 120 ⟨1000, 0, 0, 0, false, true, false, 11⟩).unlinked = false :=
  (gc_unlink_only_if_locked 120 ⟨1000, 0, 0, 0, false, true, false, 11⟩).2 rfl rfl

/-- C2 counterexample: at a concrete eligible candidate whose flock attempt
fails with EWOULDBLOCK, the loop body still pops the candidate from the
front of the queue, refuting the claim that contention leaves the candidate
queued for a later cycle. -/
theorem gc_contention_pops_counterexample :
    (gcStep 60 ⟨500, 0, 400, 400, false, true, false, 11⟩).outcome =
      GcOutcome.contention ∧
    (gcStep 60 ⟨500, 0, 400, 400, false, true, false, 11⟩).popped = true := by
  decide

/-- C2 amended: the loop body pops the head candidate exactly when the
initial eligibility test (closed_time older than the timeout, or the
disk-threshold flag) holds — every candidate that passes that test is
dequeued at the end of the eligible branch regardless of the flock outcome,
including EWOULDBLOCK contention, and the not-eligible branch never
dequeues. -/
theorem gc_pop_iff_eligible (timeout : Int) (e : GcEnv) :
    (gcStep timeout e).popped = true ↔
      (e.now - e.closed_time > timeout ∨ e.disk_threshold_reached = true) := by
  unfold gcStep
  split_ifs <;> simp_all

/-- Witness for C2's amended claim: a contended candidate is dequeued. -/
theorem gc_pop_iff_eligible_witness :
    (gcStep 60 ⟨500, 0, 450, 450, false, true, false, 11⟩).popped = true :=
  (gc_pop_iff_eligible 60 ⟨500, 0, 450, 450, false, true, false, 11⟩).mpr
    (Or.inl (by decide))

/-- C3: the threshold flag obeys hysteresis: any successful probe at or
above the high watermark turns the flag true; from a true flag, any
sequence of successful probes at or above the low watermark keeps it true;
from a false flag a probe below the high watermark (including between the
watermarks) leaves it false; and a failed probe yields false. -/
theorem disk_threshold_hysteresis (high low : ℚ) (hlh : low ≤ high) :
    (∀ (r : Bool) (u : ℚ), high ≤ u → check_disk_space high low r (some u) = true) ∧
    (∀ probes : List (Option ℚ),
        (∀ p ∈ probes, ∃ u : ℚ, p = some u ∧ low ≤ u) →
        disk_flag_run high low true probes = true) ∧
    (∀ u : ℚ, u < high → check_disk_space high low false (some u) = false) ∧
    (∀ r : Bool, check_disk_space high low r none = false) := by
  refine ⟨?_, ?_, ?_, ?_⟩
  · intro r u hu
    have hlu : low ≤ u := le_trans hlh hu
    cases r <;> simp [check_disk_space, hu, hlu]
  · intro probes
    induction probes with
    | nil => intro _; rfl
    | cons p ps ih =>
      intro hp
      obtain ⟨u, hpu, hlu⟩ := hp p (List.mem_cons_self p ps)
      have hstep : check_disk_space high low true p = true := by
        subst hpu
        simp [check_disk_space, hlu]
      simp only [disk_flag_run, List.foldl_cons]
      rw [hstep]
      exact ih (fun q hq => hp q (List.mem_cons_of_mem _ hq))
  · intro u hu
    simp [check_disk_space, not_le.mpr hu]
  · intro r
    rfl

/-- Witness for C3 at watermarks 80/60: a probe at 85 raises the flag, the
sequence 70, 65 retains it, a fresh probe at 70 does not raise it, and a
failed probe lowers it. -/
theorem disk_threshold_hysteresis_witness :
    check_disk_space 80 60 false (some 85) = true ∧
    disk_flag_run 80 60 true [some 70, some 65] = true ∧
    check_disk_space 80 60 false (some 70) = false ∧
    check_disk_space 80 60 true none = false := by
  obtain ⟨h1, h2, h3, h4⟩ := disk_threshold_hysteresis 80 60 (by norm_num)
  refine ⟨h1 false 85 (by norm_num), h2 [some 70, some 65] ?_,
      h3 70 (by norm_num), h4 true⟩
  intro p hp
  rcases List.mem_cons.mp hp with h | h
  · exact ⟨70, by simp [h], by norm_num⟩
  · rcases List.mem_cons.mp h with h2 | h2
    · exact ⟨65, by simp [h2], by norm_num⟩
    · simp at h2

/-- Unfolding equation for one loop iteration of the paginator. -/
theorem list_run_cons (s : ListLoopState) (c : ListCallResult)
    (cs : List ListCallResult) :
    list_run s (c :: cs) =
      if list_loop_done (list_step s c) then some (list_step s c)
      else list_run (list_step s c) cs := rfl

/-- Appending one page to the results appends its visible names. -/
theorem flatten_results_append (rs : List (List BlobItem × Bool))
    (p : List BlobItem × Bool) :
    flatten_results (rs ++ [p]) = flatten_results rs ++ page_names p := by
  simp [flatten_results]

/-- Main invariant of the paginator: from any loop state whose prior
matches the conversation's and whose failcount is below the bound, a
conversation serving `names` drives the loop to completion, ending either
at the 20-consecutive-failure abort or at a successful exit whose
accumulated visible names are exactly the served names. -/
theorem serves_run {prior : String} {names : List String}
    {cs : List ListCallResult} (h : Serves prior names cs) :
    ∀ s : ListLoopState, s.prior = prior → s.failcount < 20 →
      ∃ s2, list_run s cs = some s2 ∧
        ((s2.success = false ∧ s2.failcount = 20) ∨
         (s2.success = true ∧ s2.continuation = "" ∧
          flatten_results s2.results = flatten_results s.results ++ names)) := by
  induction h with
  | retry h ih =>
    intro s hp hf
    rw [list_run_cons]
    by_cases h20 : s.failcount + 1 = 20
    · refine ⟨list_step s ListCallResult.fail, ?_, Or.inl ⟨rfl, ?_⟩⟩
      · simp [list_loop_done, list_step, h20]
      · simp [list_step, h20]
    · have hdone : list_loop_done (list_step s ListCallResult.fail) = false := by
        simp [list_loop_done, list_step]
        omega
      rw [hdone, if_neg (by simp)]
      obtain ⟨s2, hrun, hres⟩ :=
        ih (list_step s ListCallResult.fail) (by simp [list_step, hp])
          (by simp [list_step]; omega)
      exact ⟨s2, hrun, hres⟩
  | emptyFinal =>
    intro s hp hf
    rw [list_run_cons]
    refine ⟨list_step s (ListCallResult.ok [] ""), ?_, Or.inr ⟨rfl, rfl, ?_⟩⟩
    · simp [list_loop_done, list_step]
    · simp [list_step]
  | @emptyPage prior2 names2 next2 cs2 hne h ih =>
    intro s hp hf
    rw [list_run_cons]
    have hdone : list_loop_done (list_step s (ListCallResult.ok [] next2)) = false := by
      simp [list_loop_done, list_step, hne]
    rw [hdone, if_neg (by simp)]
    obtain ⟨s2, hrun, hres⟩ := ih (list_step s (ListCallResult.ok [] next2))
      (by simp [list_step, hp]) (by simp [list_step])
    exact ⟨s2, hrun, hres⟩
  | freshFinal b bs hhead =>
    intro s hp hf
    rw [list_run_cons]
    have hskip : decide (b.name = s.prior) = false := by
      subst hp; exact decide_eq_false hhead
    refine ⟨list_step s (ListCallResult.ok (b :: bs) ""), ?_, Or.inr ⟨rfl, rfl, ?_⟩⟩
    · simp [list_loop_done, list_step]
    · show flatten_results (s.results ++ [(b :: bs, decide (b.name = s.prior))]) = _
      rw [hskip, flatten_results_append]
      simp [page_names]
  | @freshMore prior2 next2 cs2 b bs rest hhead hne htail ih =>
    intro s hp hf
    rw [list_run_cons]
    have hskip : decide (b.name = s.prior) = false := by
      subst hp; exact decide_eq_false hhead
    have hdone : list_loop_done (list_step s (ListCallResult.ok (b :: bs) next2)) = false := by
      simp [list_loop_done, list_step, hne]
    rw [hdone, if_neg (by simp)]
    obtain ⟨s2, hrun, hres⟩ := ih (list_step s (ListCallResult.ok (b :: bs) next2))
      (by simp [list_step]) (by simp [list_step])
    refine ⟨s2, hrun, ?_⟩
    rcases hres with habort | ⟨hsu, hco, hfl⟩
    · exact Or.inl habort
    · refine Or.inr ⟨hsu, hco, ?_⟩
      rw [hfl]
      show flatten_results (s.results ++ [(b :: bs, decide (b.name = s.prior))]) ++ rest = _
      rw [hskip, flatten_results_append]
      simp [page_names]
  | overlapFinal o bs hov =>
    intro s hp hf
    rw [list_run_cons]
    have hskip : decide (o.name = s.prior) = true := by
      subst hp; exact decide_eq_true hov
    refine ⟨list_step s (ListCallResult.ok (o :: bs) ""), ?_, Or.inr ⟨rfl, rfl, ?_⟩⟩
    · simp [list_loop_done, list_step]
    · show flatten_results (s.results ++ [(o :: bs, decide (o.name = s.prior))]) = _
      rw [hskip, flatten_results_append]
      simp [page_names]
  | @overlapMore prior2 next2 cs2 o bs rest hov hne htail ih =>
    intro s hp hf
    rw [list_run_cons]
    have hskip : decide (o.name = s.prior) = true := by
      subst hp; exact decide_eq_true hov
    have hdone : list_loop_done (list_step s (ListCallResult.ok (o :: bs) next2)) = false := by
      simp [list_loop_done, list_step, hne]
    rw [hdone, if_neg (by simp)]
    obtain ⟨s2, hrun, hres⟩ := ih (list_step s (ListCallResult.ok (o :: bs) next2))
      (by simp [list_step]) (by simp [list_step])
    refine ⟨s2, hrun, ?_⟩
    rcases hres with habort | ⟨hsu, hco, hfl⟩
    · exact Or.inl habort
    · refine Or.inr ⟨hsu, hco, ?_⟩
      rw [hfl]
      show flatten_results (s.results ++ [(o :: bs, decide (o.name = s.prior))]) ++ rest = _
      rw [hskip, flatten_results_append]
      simp [page_names]

/-- C4: the paginator retries a failed call with the same continuation
token and increments the consecutive-failure counter; a success resets the
counter to zero, records the returned token, and appends the page flagged
skip_first exactly when its first entry name equals the prior page's last
entry name (tracked in `prior`); and against any legal remote conversation
serving the name sequence `names`, the loop either aborts at 20
consecutive failures (surfacing the remote error) or terminates exactly at
an empty continuation token after a success, with the concatenation of its
pages after the skip_first drops equal to `names` — each served name
exactly once, in served order. -/
theorem list_all_blobs_pagination :
    (∀ s : ListLoopState,
        (list_step s ListCallResult.fail).continuation = s.continuation ∧
        (list_step s ListCallResult.fail).failcount = s.failcount + 1 ∧
        (list_step s ListCallResult.fail).success = false ∧
        (list_step s ListCallResult.fail).results = s.results) ∧
    (∀ (s : ListLoopState) (blobs : List BlobItem) (next : String),
        (list_step s (ListCallResult.ok blobs next)).failcount = 0 ∧
        (list_step s (ListCallResult.ok blobs next)).success = true ∧
        (list_step s (ListCallResult.ok blobs next)).continuation = next) ∧
    (∀ (s : ListLoopState) (b : BlobItem) (bs : List BlobItem) (next : String),
        (list_step s (ListCallResult.ok (b :: bs) next)).results =
          s.results ++ [(b :: bs, decide (b.name = s.prior))] ∧
        (list_step s (ListCallResult.ok (b :: bs) next)).prior = (bs.getLastD b).name) ∧
    (∀ (s : ListLoopState) (next : String),
        (list_step s ListCallResult.fail).prior = s.prior ∧
        (list_step s (ListCallResult.ok [] next)).prior = s.prior ∧
        (list_step s (ListCallResult.ok [] next)).results = s.results) ∧
    (∀ (names : List String) (oracle : List ListCallResult),
        Serves "" names oracle →
        ∃ s2, list_run list_init oracle = some s2 ∧
          ((s2.success = false ∧ s2.failcount = 20) ∨
           (s2.success = true ∧ s2.continuation = "" ∧
            flatten_results s2.results = names))) := by
  refine ⟨?_, ?_, ?_, ?_, ?_⟩
  · intro s
    exact ⟨rfl, rfl, rfl, rfl⟩
  · intro s blobs next
    cases blobs <;> exact ⟨rfl, rfl, rfl⟩
  · intro s b bs next
    exact ⟨rfl, rfl⟩
  · intro s next
    exact ⟨rfl, rfl, rfl⟩
  · intro names oracle h
    obtain ⟨s2, hrun, hres⟩ := serves_run h list_init rfl (by simp [list_init])
    refine ⟨s2, hrun, ?_⟩
    rcases hres with habort | ⟨hsu, hco, hfl⟩
    · exact Or.inl habort
    · refine Or.inr ⟨hsu, hco, ?_⟩
      rw [hfl]
      simp [list_init, flatten_results]

/-- Witness for C4: a conversation with one transient failure, a first page
a,b and an overlapping second page b,c (the duplicate suppressed via
skip_first) delivers exactly a, b, c. -/
theorem list_all_blobs_pagination_witness :
    ∃ s2, list_run list_init
        [ListCallResult.fail,
         ListCallResult.ok [⟨"a", false, 0, []⟩, ⟨"b", false, 0, []⟩] "t1",
         ListCallResult.ok [⟨"b", true, 1, []⟩, ⟨"c", false, 0, []⟩] ""] = some s2 ∧
      ((s2.success = false ∧ s2.failcount = 20) ∨
       (s2.success = true ∧ s2.continuation = "" ∧
        flatten_results s2.results = ["a", "b", "c"])) :=
  list_all_blobs_pagination.2.2.2.2 ["a", "b", "c"]
    [ListCallResult.fail,
     ListCallResult.ok [⟨"a", false, 0, []⟩, ⟨"b", false, 0, []⟩] "t1",
     ListCallResult.ok [⟨"b", true, 1, []⟩, ⟨"c", false, 0, []⟩] ""]
    (Serves.retry
      (Serves.freshMore ⟨"a", false, 0, []⟩ [⟨"b", false, 0, []⟩] ["c"]
        (by decide) (by decide)
        (Serves.overlapFinal ⟨"b", true, 1, []⟩ [⟨"c", false, 0, []⟩] (by decide))))

/-- C5: the directory-emptiness decision table on the spec's fixtures — no
objects under the prefix and no marker gives NotExist; exactly the legacy
".directory" marker gives Empty; the marker plus another entry gives
NotEmpty, both when they arrive on one page and when the second entry
arrives alone on a later page; any first page with two or more entries
gives NotEmpty; and a zero-size object at the exact key carrying the
folder metadata flag, with no children, gives Empty. -/
theorem is_directory_empty_decision_table :
    (is_directory_empty 404 ⟨false, 0, []⟩
        [ListCallResult.ok [] ""] = some D_NOTEXIST) ∧
    (is_directory_empty 404 ⟨false, 0, []⟩
        [ListCallResult.ok [⟨"a/.directory", false, 0, []⟩] ""] = some D_EMPTY) ∧
    (is_directory_empty 404 ⟨false, 0, []⟩
        [ListCallResult.ok [⟨"a/.directory", false, 0, []⟩,
                            ⟨"a/b.txt", false, 3, []⟩] ""] = some D_NOTEMPTY) ∧
    (is_directory_empty 404 ⟨false, 0, []⟩
        [ListCallResult.ok [⟨"a/.directory", false, 0, []⟩] "tok",
         ListCallResult.ok [⟨"a/b.txt", false, 3, []⟩] ""] = some D_NOTEMPTY) ∧
    (∀ (pe : Int) (props : BlobProperty) (b b2 : BlobItem) (bs : List BlobItem)
        (next : String) (cs : List ListCallResult),
        (pe = 0 ∨ pe = 404 ∨ pe = ENOENT) →
        is_directory_empty pe props (ListCallResult.ok (b :: b2 :: bs) next :: cs) =
          some D_NOTEMPTY) ∧
    (is_directory_empty 0 ⟨true, 0, [("hdi_isfolder", "true")]⟩
        [ListCallResult.ok [] ""] = some D_EMPTY) := by
  refine ⟨by decide, by decide, by decide, by decide, ?_, by decide⟩
  intro pe props b b2 bs next cs hpe
  have hguard : ¬ (pe ≠ 0 ∧ pe ≠ 404 ∧ pe ≠ ENOENT) := by
    rcases hpe with h | h | h <;> simp [h]
  simp [is_directory_empty, hguard, dir_loop]

/-- Witness for C5: the two-or-more-entries conjunct applied at the
concrete marker-plus-file page. -/
theorem is_directory_empty_decision_table_witness :
    is_directory_empty 404 ⟨false, 0, []⟩
        [ListCallResult.ok [⟨"a/.directory", false, 0, []⟩,
                            ⟨"a/b.txt", false, 3, []⟩] "k"] = some D_NOTEMPTY :=
  is_directory_empty_decision_table.2.2.2.2.1 404 ⟨false, 0, []⟩
    ⟨"a/.directory", false, 0, []⟩ ⟨"a/b.txt", false, 3, []⟩ [] "k" []
    (Or.inr (Or.inl rfl))

/-- A run of consecutive listing failures that takes the failure counter
from its current value to the bound of 20 makes the loop of
is_directory_empty exit with the failure value -1, whatever oracle entries
follow. -/
theorem dir_loop_fails (n : Nat) :
    ∀ (dbe : Bool) (s : DirLoopState) (rest : List ListCallResult),
    1 ≤ n → s.failcount + n = 20 →
    dir_loop dbe s (List.replicate n ListCallResult.fail ++ rest) = some (-1) := by
  induction n with
  | zero =>
    intro _ _ _ h _
    omega
  | succ m ih =>
    intro dbe s rest _ hsum
    rw [List.replicate_succ, List.cons_append]
    by_cases hm : m = 0
    · subst hm
      have h19 : s.failcount = 19 := by omega
      simp [dir_loop, dir_loop_done, dir_list_finish, h19]
    · have hdone : dir_loop_done
          { s with success := false, failcount := s.failcount + 1 } = false := by
        simp [dir_loop_done]
        omega
      have := ih dbe { s with success := false, failcount := s.failcount + 1 } rest
        (by omega) (by simp; omega)
      simpa [dir_loop, hdone] using this

/-- C8: when the listing loop inside is_directory_empty exhausts the retry
bound of 20 consecutive failures, the function returns the failure value
-1; every loop exit without a final success yields -1; and -1 is distinct
from the NotExist code (and from Empty and NotEmpty), so a listing failure
is never reported as directory absence. -/
theorem dir_empty_failure_distinct :
    (∀ (pe : Int) (props : BlobProperty),
        (pe = 0 ∨ pe = 404 ∨ pe = ENOENT) →
        is_directory_empty pe props (List.replicate 20 ListCallResult.fail) =
          some (-1)) ∧
    (∀ (dbe : Bool) (s : DirLoopState), s.success = false →
        dir_list_finish dbe s = -1) ∧
    ((-1 : Int) ≠ D_NOTEXIST ∧ (-1 : Int) ≠ D_EMPTY ∧ (-1 : Int) ≠ D_NOTEMPTY) := by
  refine ⟨?_, ?_, by decide⟩
  · intro pe props hpe
    have hguard : ¬ (pe ≠ 0 ∧ pe ≠ 404 ∧ pe ≠ ENOENT) := by
      rcases hpe with h | h | h <;> simp [h]
    have hloop := dir_loop_fails 20
      (if pe = 0 ∧ props.valid = true then
        is_directory_blob props.size props.metadata else false)
      { continuation := "", success := false, failcount := 0,
        old_dir_blob_found := false }
      [] (by omega) (by simp)
    rw [List.append_nil] at hloop
    simpa [is_directory_empty, hguard] using hloop
  · intro dbe s hs
    simp [dir_list_finish, hs]

/-- Witness for C8: the 20-failure oracle at a concrete absent-marker
property probe returns -1. -/
theorem dir_empty_failure_distinct_witness :
    is_directory_empty 404 ⟨false, 0, []⟩
      (List.replicate 20 ListCallResult.fail) = some (-1) :=
  dir_empty_failure_distinct.1 404 ⟨false, 0, []⟩ (Or.inr (Or.inl rfl))

/-- The remote phase is the remote trailing-name candidates filtered by
absence from the handled set. -/
theorem remote_phase_eq_filter (src_len : Nat) (handled : List String)
    (rs : List (List BlobItem × Bool)) :
    remote_phase src_len handled rs =
      (remote_names src_len rs).filter (fun t => ! handled.contains t) := by
  unfold remote_phase remote_names
  induction dedup_items rs with
  | nil => rfl
  | cons b l ih =>
    cases hb : remote_token src_len b with
    | none => simpa [List.filterMap_cons, hb] using ih
    | some t =>
      by_cases hc : t ∈ handled
      · simpa [List.filterMap_cons, hb, hc] using ih
      · simpa [List.filterMap_cons, hb, hc] using ih

/-- C6: an entry present both in the local cache walk and in the remote
listing is renamed exactly once by one invocation of the rename engine
over its direct children: the local phase handles it and records its name,
and the remote phase's handled-set test then excludes it. -/
theorem rename_directory_exactly_once (src_len : Nat) (locals : List LocalEntry)
    (rs : List (List BlobItem × Bool)) (n : String)
    (hl : (locals.map LocalEntry.d_name).Nodup)
    (hr : (remote_names src_len rs).Nodup)
    (hloc : n ∈ locals.map LocalEntry.d_name)
    (hrem : n ∈ remote_names src_len rs) :
    (rename_ops src_len locals rs).count n = 1 := by
  unfold rename_ops
  rw [List.count_append, remote_phase_eq_filter]
  by_cases hd : n.data.head? = some '.'
  · have hnl : n ∉ local_phase locals := by
      unfold local_phase
      intro hmem
      rcases List.mem_map.mp hmem with ⟨e, he, hne⟩
      rcases List.mem_filter.mp he with ⟨_, hcond⟩
      rw [hne] at hcond
      simp [hd] at hcond
    have hcontains : (local_phase locals).contains n = false := by
      simpa using hnl
    have hmemf : n ∈ (remote_names src_len rs).filter
        (fun t => ! (local_phase locals).contains t) :=
      List.mem_filter.mpr ⟨hrem, by simpa using hnl⟩
    rw [List.count_eq_zero.mpr hnl,
      List.count_eq_one_of_mem (hr.filter _) hmemf]
  · have hnl : n ∈ local_phase locals := by
      rcases List.mem_map.mp hloc with ⟨e, he, hne⟩
      refine List.mem_map.mpr ⟨e, List.mem_filter.mpr ⟨he, ?_⟩, hne⟩
      rw [hne]
      simp [hd]
    have hlocnd : (local_phase locals).Nodup := by
      unfold local_phase
      exact hl.sublist (List.Sublist.map LocalEntry.d_name (List.filter_sublist locals))
    have hcontains : (local_phase locals).contains n = true := by
      simpa using hnl
    have hnotf : n ∉ (remote_names src_len rs).filter
        (fun t => ! (local_phase locals).contains t) := by
      intro hmem
      rcases List.mem_filter.mp hmem with ⟨_, hcond⟩
      simp only [Bool.not_eq_true', Bool.not_eq_false] at hcond
      exact absurd hnl (by simpa using hcond)
    rw [List.count_eq_one_of_mem hlocnd hnl, List.count_eq_zero.mpr hnotf]

/-- Witness for C6: a file cached locally as b.txt and listed remotely as
a/b.txt under source prefix "/a/" is renamed exactly once. -/
theorem rename_directory_exactly_once_witness :
    (rename_ops 3 [⟨"b.txt", false⟩]
        [([⟨"a/b.txt", false, 3, []⟩, ⟨"a/c.txt", false, 1, []⟩], false)]).count
      "b.txt" = 1 :=
  rename_directory_exactly_once 3 [⟨"b.txt", false⟩]
    [([⟨"a/b.txt", false, 3, []⟩, ⟨"a/c.txt", false, 1, []⟩], false)] "b.txt"
    (by decide) (by decide) (by decide) (by decide)

/-- C7 (code bug): for a directory that exists as a zero-size metadata
marker blob "a" and has children (the listing shows the common-prefix
entry "a/", which only appears when at least one blob lives under "a/"),
the getattr scan synthesizes a directory record with link count 2 — the
empty signal — although the scanned listing shows child evidence; the
count of entries lexicographically below blobName + "/" never counts
entries under the directory, contradicting the claimed emptiness
semantics of the link count. -/
theorem getattr_nlink_child_evidence_bug :
    getattr_result "a"
        [([⟨"a", false, 0, [("hdi_isfolder", "true")]⟩, ⟨"a/", true, 0, []⟩],
          false)] = some (true, 2) ∧
    shows_child "a" (⟨"a/", true, 0, []⟩ : BlobItem) = true ∧
    name_lt "a/" ("a" ++ "/") = false := by
  decide

/-- C9: azs_rename returns 0 whenever the initial attribute lookup on the
source succeeded, whatever values the discarded azs_rename_directory or
azs_rename_single_file calls return. -/
theorem azs_rename_discards_failures (getattrret : Int) (is_dir : Bool)
    (rename_dir_ret rename_file_ret : Int) (h : getattrret = 0) :
    azs_rename getattrret is_dir rename_dir_ret rename_file_ret = 0 := by
  simp [azs_rename, h]

/-- Witness for C9: a successful lookup with both underlying renames
failing still reports success. -/
theorem azs_rename_discards_failures_witness :
    azs_rename 0 true (-5) (-7) = 0 :=
  azs_rename_discards_failures 0 true (-5) (-7) rfl

/-- C10: a local directory entry whose name begins with '.' is skipped by
the local phase — neither renamed nor recorded in the handled set — so the
remote phase renames it exactly when it appears in the remote listing, and
an entry cached only locally under a dot name is never renamed at all. -/
theorem rename_directory_skips_dot_entries (locals : List LocalEntry)
    (e : LocalEntry) (_he : e ∈ locals)
    (hd : e.d_name.data.head? = some '.') :
    e.d_name ∉ local_phase locals ∧
    (∀ (src_len : Nat) (rs : List (List BlobItem × Bool)),
        e.d_name ∈ remote_phase src_len (local_phase locals) rs ↔
          e.d_name ∈ remote_names src_len rs) ∧
    (∀ (src_len : Nat) (rs : List (List BlobItem × Bool)),
        e.d_name ∉ remote_names src_len rs →
        (rename_ops src_len locals rs).count e.d_name = 0) := by
  have hnl : e.d_name ∉ local_phase locals := by
    unfold local_phase
    intro hmem
    rcases List.mem_map.mp hmem with ⟨e2, he2, hne⟩
    rcases List.mem_filter.mp he2 with ⟨_, hcond⟩
    rw [hne] at hcond
    simp [hd] at hcond
  have hcontains : (local_phase locals).contains e.d_name = false := by
    simpa using hnl
  refine ⟨hnl, ?_, ?_⟩
  · intro src_len rs
    rw [remote_phase_eq_filter]
    constructor
    · intro hmem
      exact (List.mem_filter.mp hmem).1
    · intro hmem
      exact List.mem_filter.mpr ⟨hmem, by simpa using hnl⟩
  · intro src_len rs hnr
    unfold rename_ops
    rw [List.count_append, remote_phase_eq_filter]
    have hnotf : e.d_name ∉ (remote_names src_len rs).filter
        (fun t => ! (local_phase locals).contains t) := by
      intro hmem
      exact hnr (List.mem_filter.mp hmem).1
    rw [List.count_eq_zero.mpr hnl, List.count_eq_zero.mpr hnotf]

/-- Witness for C10: a locally cached .hidden entry is not handled locally
and, absent from the remote listing, is never renamed. -/
theorem rename_directory_skips_dot_entries_witness :
    ".hidden" ∉ local_phase [(⟨".hidden", false⟩ : LocalEntry)] ∧
    (rename_ops 3 [(⟨".hidden", false⟩ : LocalEntry)] []).count ".hidden" = 0 :=
  ⟨(rename_directory_skips_dot_entries [⟨".hidden", false⟩] ⟨".hidden", false⟩
      (by decide) (by decide)).1,
   (rename_directory_skips_dot_entries [⟨".hidden", false⟩] ⟨".hidden", false⟩
      (by decide) (by decide)).2.2 3 [] (by decide)⟩

end Blobfuse
